import Mathlib

/-!
Shallow embedding of the calculation and validation engine of
`src/components/PDCalculator.tsx` (PD machine calculator), together with
proofs about its rounding policy, validators, cycle/volume solvers, tidal
cycle search and treatment-time breakdown.

Numeric conventions of the embedding:
* JS numbers that carry exact clinical quantities are embedded as `ℚ`
  (every finite double is rational; none of the verified properties
  depends on floating-point rounding error).
* `Math.floor` / `Math.ceil` / `Math.round` are `Int.floor`, `Int.ceil`
  and Mathlib's `round` (`round x = ⌊x + 1/2⌋`, exactly the JS
  half-up behaviour of `Math.round`).
* The JS `%` operator on numbers is truncated remainder, `Int.tmod`.
* `parseInt(x.toString())` on a finite number without exponent notation
  truncates toward zero; it is embedded as `jsTrunc`.
-/

namespace PDCalc

/-- FillMode from the source: `'low' | 'standard'`. -/
inductive FillMode where
  | low
  | standard
deriving DecidableEq

/-- QuantityType selecting a sub-table: `'fillVolume' | 'totalVolume'`. -/
inductive QuantityType where
  | fillVolume
  | totalVolume
deriving DecidableEq

/-- IncrementRange from the source: `range: [min, max]` plus `increment`. -/
structure IncrementRange where
  min : ℤ
  max : ℤ
  increment : ℤ
deriving DecidableEq

/-- INCREMENT_RULES table from the source, both modes and both quantity types. -/
def incrementRules : FillMode → QuantityType → List IncrementRange
  | .low, .fillVolume => [⟨60, 100, 1⟩, ⟨100, 500, 10⟩, ⟨500, 1000, 50⟩]
  | .low, .totalVolume => [⟨200, 2000, 50⟩, ⟨2000, 20000, 100⟩, ⟨20000, 80000, 500⟩]
  | .standard, .fillVolume => [⟨100, 500, 10⟩, ⟨500, 1000, 50⟩, ⟨1000, 3000, 100⟩]
  | .standard, .totalVolume => [⟨200, 2000, 50⟩, ⟨2000, 5000, 100⟩, ⟨5000, 80000, 500⟩]

/-- MAX_TIDAL_CYCLES constant from the source. -/
def MAX_TIDAL_CYCLES : ℕ := 1000

/-- FILL_DRAIN_TIME_MINUTES constant from the source. -/
def FILL_DRAIN_TIME_MINUTES : ℚ := 15

/-- The scan `for (const rule of rules) if (min ≤ v ∧ v ≤ max) ...` that both
`roundToValidIncrement` and `validateValue` perform: the first range of the
list whose closed interval contains the value. -/
def findRange (w : ℤ) : List IncrementRange → Option IncrementRange
  | [] => none
  | rule :: rest => if rule.min ≤ w ∧ w ≤ rule.max then some rule else findRange w rest

/-- Embeds `rules[0].range[0]` for a nonempty rules list. -/
def firstMin : List IncrementRange → ℤ
  | [] => 0
  | rule :: _ => rule.min

/-- Embeds `rules[rules.length - 1].range[1]` for a nonempty rules list. -/
def lastMax : List IncrementRange → ℤ
  | [] => 0
  | [rule] => rule.max
  | _ :: rest => lastMax rest

/-- RoundingResult from the source; the presentation-only `message` string is
omitted and the optional `outOfRange` flag is a `Bool` that is `false` when the
source leaves the field unset. -/
structure RoundingResult where
  rounded : ℤ
  wasRounded : Bool
  increment : Option ℤ := none
  outOfRange : Bool := false
deriving DecidableEq

/-- Body of `roundToValidIncrement` after `wholeValue = Math.round(value)` has
been taken: scan the ranges (first match wins); inside a range return the value
unchanged when it is a multiple of the increment, otherwise round up by
`increment - wholeValue % increment`, clamping to the range max; on
fall-through clamp to the table's last max (when above it) or first min and
flag `outOfRange`. -/
def roundWholeValue (wholeValue : ℤ) (rules : List IncrementRange) : RoundingResult :=
  match findRange wholeValue rules with
  | some rule =>
    let remainder := Int.tmod wholeValue rule.increment
    if remainder = 0 then
      { rounded := wholeValue, wasRounded := false }
    else
      let rounded := wholeValue + (rule.increment - remainder)
      if rule.max < rounded then
        { rounded := rule.max, wasRounded := true, increment := some rule.increment }
      else
        { rounded := rounded, wasRounded := true, increment := some rule.increment }
  | none =>
    if lastMax rules < wholeValue then
      { rounded := lastMax rules, wasRounded := true, outOfRange := true }
    else
      { rounded := firstMin rules, wasRounded := true, outOfRange := true }

/-- roundToValidIncrement from the source: `wholeValue = Math.round(value)`,
then the range scan of `roundWholeValue` over the mode/type rules. -/
def roundToValidIncrement (value : ℚ) (type : QuantityType) (mode : FillMode) : RoundingResult :=
  roundWholeValue (round value) (incrementRules mode type)

/-- Embeds `parseInt(value.toString())` for a finite JS number whose decimal
rendering has no exponent (true of every quantity in the rule tables'
magnitude): truncation toward zero. -/
def jsTrunc (q : ℚ) : ℤ := if 0 ≤ q then ⌊q⌋ else ⌈q⌉

/-- The distinct validation messages produced by `validateValue`, with the
numeric data that the source interpolates into the strings. -/
inductive ValidationMsg where
  | invalidNumber
  | incrementMismatch (increment min max : ℤ)
  | rangeViolation (min max : ℤ)
deriving DecidableEq

/-- ValidationResult from the source. -/
structure ValidationResult where
  valid : Bool
  message : Option ValidationMsg := none
deriving DecidableEq

/-- Body of `validateValue` after `num = parseInt(value.toString())`: scan the
ranges; inside the first containing range succeed iff `num % increment == 0`,
otherwise cite the increment and range; on fall-through cite the table's
overall span (first min, last max). The `isNaN` branch of the source is
unreachable for rational inputs. -/
def validateValueInt (num : ℤ) (typeRules : List IncrementRange) : ValidationResult :=
  match findRange num typeRules with
  | some rule =>
    if Int.tmod num rule.increment = 0 then
      { valid := true }
    else
      { valid := false, message := some (.incrementMismatch rule.increment rule.min rule.max) }
  | none =>
    { valid := false, message := some (.rangeViolation (firstMin typeRules) (lastMax typeRules)) }

/-- validateValue from the source (the `useValidation` hook), for numeric
input: `num = parseInt(value.toString())`, then the range scan. -/
def validateValue (value : ℚ) (type : QuantityType) (mode : FillMode) : ValidationResult :=
  validateValueInt (jsTrunc value) (incrementRules mode type)

/-- The distinct whole-request failure reasons `validateInputs` can surface,
tagged by which field's message is interpolated. -/
inductive InputError where
  | fillTooSmall
  | totalVolumeError (m : Option ValidationMsg)
  | fillVolumeError (m : Option ValidationMsg)
  | lastFillError (m : Option ValidationMsg)
  | fillTooLarge
deriving DecidableEq

/-- validateInputs from the source: the fixed precedence chain
fill==0, total, fill, last, last>fill, fill≤0; `none` means all checks pass. -/
def validateInputs (total fill last : ℚ) (mode : FillMode) : Option InputError :=
  if fill = 0 then some .fillTooSmall
  else
    let totalValidation := validateValue total .totalVolume mode
    if totalValidation.valid = false then some (.totalVolumeError totalValidation.message)
    else
      let fillValidation := validateValue fill .fillVolume mode
      if fillValidation.valid = false then some (.fillVolumeError fillValidation.message)
      else
        let lastFillValidation := validateValue last .fillVolume mode
        if lastFillValidation.valid = false then some (.lastFillError lastFillValidation.message)
        else if fill < last then some .fillTooLarge
        else if fill ≤ 0 then some .fillTooSmall
        else none

/-- calculateCyclesFromVolume from the source:
`fillVolume === 0 ? 0 : Math.floor((totalVolume - lastFill) / fillVolume)`. -/
def calculateCyclesFromVolume (totalVolume lastFill fillVolume : ℚ) : ℤ :=
  if fillVolume = 0 then 0 else ⌊(totalVolume - lastFill) / fillVolume⌋

/-- calculateVolumeFromCycles from the source: `cycles * fillVolume + lastFill`. -/
def calculateVolumeFromCycles (cycles : ℤ) (fillVolume lastFill : ℚ) : ℚ :=
  (cycles : ℚ) * fillVolume + lastFill

/-- TimeBreakdown from the source; the `error` string is modelled as a `Bool`
flag (`true` exactly when the source record carries the error message). -/
structure TimeBreakdown where
  timePerCycleHours : ℚ
  timePerCycleMinutes : ℚ
  dwellTimeMinutes : ℚ
  dwellTimeHours : ℚ
  fillTimeMinutes : ℚ
  drainTimeMinutes : ℚ
  totalDwellTimeHours : ℚ
  totalFillDrainTimeMinutes : ℚ
  totalTreatmentMinutes : ℚ
  error : Bool := false
deriving DecidableEq

/-- The all-zero error record calculateTimeBreakdown returns when the dwell
time would be negative. -/
def timeBreakdownErrorState : TimeBreakdown :=
  { timePerCycleHours := 0
    timePerCycleMinutes := 0
    dwellTimeMinutes := 0
    dwellTimeHours := 0
    fillTimeMinutes := 0
    drainTimeMinutes := 0
    totalDwellTimeHours := 0
    totalFillDrainTimeMinutes := 0
    totalTreatmentMinutes := 0
    error := true }

/-- calculateTimeBreakdown from the source. The guard
`!treatmentTimeHours || !cycles || cycles === 0` is falsy-zero testing on
numbers, i.e. `hours = 0 ∨ cycles = 0`. -/
def calculateTimeBreakdown (treatmentTimeHours : ℚ) (cycles : ℤ) : Option TimeBreakdown :=
  if treatmentTimeHours = 0 ∨ cycles = 0 then none
  else
    let totalMinutes := treatmentTimeHours * 60
    let fillDrainPerCycle := FILL_DRAIN_TIME_MINUTES
    let totalFillDrainTime := fillDrainPerCycle * (cycles : ℚ)
    let totalDwellTime := totalMinutes - totalFillDrainTime
    if totalDwellTime < 0 then some timeBreakdownErrorState
    else
      let dwellTimePerCycle := totalDwellTime / (cycles : ℚ)
      let timePerCycle := totalMinutes / (cycles : ℚ)
      let fillTime := fillDrainPerCycle / 2
      let drainTime := fillDrainPerCycle / 2
      some
        { timePerCycleHours := timePerCycle / 60
          timePerCycleMinutes := timePerCycle
          dwellTimeMinutes := dwellTimePerCycle
          dwellTimeHours := dwellTimePerCycle / 60
          fillTimeMinutes := fillTime
          drainTimeMinutes := drainTime
          totalDwellTimeHours := totalDwellTime / 60
          totalFillDrainTimeMinutes := totalFillDrainTime
          totalTreatmentMinutes := totalMinutes }

/-- Loop body volume of the tidal search and of calculateVolumeFromTidalCycles
without the last fill: `fullDrainCount = Math.ceil(c / fullDrainInterval)`;
`tidalDrainCycles = c - fullDrainCount`;
`fillVolume * tidalDecimal * tidalDrainCycles + fullDrainCount * fillVolume`. -/
def tidalCycleVolume (c : ℕ) (fillVolume tidalDecimal : ℚ) (fullDrainInterval : ℕ) : ℚ :=
  let fullDrainCount : ℤ := ⌈(c : ℚ) / (fullDrainInterval : ℚ)⌉
  let tidalDrainCycles : ℚ := (c : ℚ) - (fullDrainCount : ℚ)
  fillVolume * tidalDecimal * tidalDrainCycles + (fullDrainCount : ℚ) * fillVolume

/-- The `for (let c = 1; c <= MAX_TIDAL_CYCLES; c++)` loop of
calculateTidalCyclesCount, with an explicit fuel argument: keep `c` as
`bestCycles` while the computed volume stays within the working volume and
break at the first `c` whose volume exceeds it. -/
def tidalSearchGo (workingVolume fillVolume tidalDecimal : ℚ) (fullDrainInterval : ℕ) :
    ℕ → ℕ → ℕ → ℕ
  | 0, _, bestCycles => bestCycles
  | fuel + 1, c, bestCycles =>
    if MAX_TIDAL_CYCLES < c then bestCycles
    else if tidalCycleVolume c fillVolume tidalDecimal fullDrainInterval ≤ workingVolume then
      tidalSearchGo workingVolume fillVolume tidalDecimal fullDrainInterval fuel (c + 1) c
    else bestCycles

/-- calculateTidalCyclesCount from the source: ascending scan from `c = 1`
with `bestCycles = 0`, early exit at the first too-large volume, hard cap
MAX_TIDAL_CYCLES. -/
def calculateTidalCyclesCount (workingVolume fillVolume tidalDecimal : ℚ)
    (fullDrainInterval : ℕ) : ℕ :=
  tidalSearchGo workingVolume fillVolume tidalDecimal fullDrainInterval
    (MAX_TIDAL_CYCLES + 1) 1 0

/-- calculateVolumeFromTidalCycles from the source: the tidal forward formula
plus the last fill. -/
def calculateVolumeFromTidalCycles (cycles : ℕ) (fillVolume lastFill tidalDecimal : ℚ)
    (fullDrainInterval : ℕ) : ℚ :=
  let fullDrainCount : ℤ := ⌈(cycles : ℚ) / (fullDrainInterval : ℚ)⌉
  let tidalDrainCycles : ℚ := (cycles : ℚ) - (fullDrainCount : ℚ)
  let tidalVolume := fillVolume * tidalDecimal * tidalDrainCycles
  let fullDrainVolume := (fullDrainCount : ℚ) * fillVolume
  tidalVolume + fullDrainVolume + lastFill

/-- The tidal fractions the UI admits: a percentage 40, 45, …, 95 divided
by 100. -/
def ValidTidalFraction (t : ℚ) : Prop :=
  ∃ k : ℕ, 8 ≤ k ∧ k ≤ 19 ∧ t = ((5 * k : ℕ) : ℚ) / 100

/-! Basic facts about the range scan and the configured tables. -/

lemma findRange_eq_some {w : ℤ} {rules : List IncrementRange} {rule : IncrementRange}
    (h : findRange w rules = some rule) :
    rule ∈ rules ∧ rule.min ≤ w ∧ w ≤ rule.max := by
  induction rules with
  | nil => simp [findRange] at h
  | cons r rest ih =>
    rw [findRange] at h
    split_ifs at h with hin
    · obtain rfl : r = rule := by injection h
      exact ⟨List.mem_cons_self .., hin⟩
    · obtain ⟨hm, hb⟩ := ih h
      exact ⟨List.mem_cons_of_mem _ hm, hb⟩

lemma findRange_eq_none {w : ℤ} {rules : List IncrementRange}
    (h : ∀ r ∈ rules, r.max < w) : findRange w rules = none := by
  induction rules with
  | nil => rfl
  | cons r rest ih =>
    rw [findRange, if_neg, ih fun s hs => h s (List.mem_cons_of_mem _ hs)]
    have := h r (List.mem_cons_self ..)
    omega

/-- Every configured range has a nonnegative min, a positive increment, and a
max bounded by the table's last max. -/
lemma incrementRules_wf (mode : FillMode) (type : QuantityType) :
    ∀ r ∈ incrementRules mode type,
      0 ≤ r.min ∧ 0 < r.increment ∧ r.max ≤ lastMax (incrementRules mode type) := by
  cases mode <;> cases type <;> decide

/-- In every configured table, consecutive ranges touch or overlap: the next
range starts no later than one past the previous range's max. -/
lemma incrementRules_chain (mode : FillMode) (type : QuantityType) :
    List.Chain' (fun a b => b.min ≤ a.max + 1) (incrementRules mode type) := by
  cases mode <;> cases type <;>
    simp [incrementRules, List.chain'_cons, List.chain'_singleton]

lemma incrementRules_ne_nil (mode : FillMode) (type : QuantityType) :
    incrementRules mode type ≠ [] := by
  cases mode <;> cases type <;> decide

/-- When the scan falls through a gap-free table, the value is strictly left of
the first min or strictly right of the last max. -/
lemma findRange_none_bounds {w : ℤ} :
    ∀ rules : List IncrementRange,
      List.Chain' (fun a b => b.min ≤ a.max + 1) rules → rules ≠ [] →
      findRange w rules = none → w < firstMin rules ∨ lastMax rules < w := by
  intro rules
  induction rules with
  | nil => intro _ h; exact absurd rfl h
  | cons r rest ih =>
    intro hchain _ hnone
    rw [findRange] at hnone
    split_ifs at hnone with hin
    cases rest with
    | nil =>
      simp only [firstMin, lastMax]
      omega
    | cons r2 rest2 =>
      obtain ⟨hle, hchain2⟩ := List.chain'_cons.mp hchain
      have h2 := ih hchain2 (by simp) hnone
      simp only [firstMin] at h2 ⊢
      rw [show lastMax (r :: r2 :: rest2) = lastMax (r2 :: rest2) from rfl]
      omega

/-! Behaviour of `roundWholeValue` on each branch. -/

/-- In-range multiple: returned unchanged, `wasRounded = false`. -/
lemma roundWholeValue_in_range_dvd {w : ℤ} {rules : List IncrementRange}
    {rule : IncrementRange} (hfr : findRange w rules = some rule) (hw : 0 ≤ w)
    (hinc : 0 < rule.increment) (hdvd : rule.increment ∣ w) :
    roundWholeValue w rules = { rounded := w, wasRounded := false } := by
  have htm : Int.tmod w rule.increment = w % rule.increment := Int.tmod_eq_emod hw hinc.le
  have h0 : w % rule.increment = 0 := Int.emod_eq_zero_of_dvd hdvd
  unfold roundWholeValue
  rw [hfr]
  simp [htm, h0]

/-- In-range non-multiple: rounded strictly up to the least multiple of the
increment above the value, or clamped to the range max when every such
multiple overshoots it; `wasRounded = true`, `outOfRange` not set, and the
result is never below the whole value. -/
lemma roundWholeValue_in_range_not_dvd {w : ℤ} {rules : List IncrementRange}
    {rule : IncrementRange} (hfr : findRange w rules = some rule) (hmin : 0 ≤ rule.min)
    (hinc : 0 < rule.increment) (hndvd : ¬ rule.increment ∣ w) :
    (roundWholeValue w rules).wasRounded = true ∧
    (roundWholeValue w rules).outOfRange = false ∧
    w ≤ (roundWholeValue w rules).rounded ∧
    ((rule.increment ∣ (roundWholeValue w rules).rounded ∧
      w < (roundWholeValue w rules).rounded ∧
      ∀ m : ℤ, rule.increment ∣ m → w < m → (roundWholeValue w rules).rounded ≤ m) ∨
     ((roundWholeValue w rules).rounded = rule.max ∧
      ∀ m : ℤ, rule.increment ∣ m → w < m → rule.max < m)) := by
  obtain ⟨hmem, hwmin, hwmax⟩ := findRange_eq_some hfr
  have hw : 0 ≤ w := le_trans hmin hwmin
  have htm : Int.tmod w rule.increment = w % rule.increment := Int.tmod_eq_emod hw hinc.le
  have hrnz : w % rule.increment ≠ 0 := fun h0 => hndvd (Int.dvd_of_emod_eq_zero h0)
  have hr0 : 0 ≤ w % rule.increment := Int.emod_nonneg w hinc.ne'
  have hrlt : w % rule.increment < rule.increment := Int.emod_lt_of_pos w hinc
  have hdm := Int.ediv_add_emod w rule.increment
  set next := w + (rule.increment - w % rule.increment) with hnext
  have hnext_eq : next = rule.increment * (w / rule.increment + 1) := by
    rw [mul_add, mul_one]
    linarith [hdm]
  have hdvd_next : rule.increment ∣ next := ⟨w / rule.increment + 1, hnext_eq⟩
  have hlt_next : w < next := by omega
  have hleast : ∀ m : ℤ, rule.increment ∣ m → w < m → next ≤ m := by
    rintro m ⟨q, rfl⟩ hm
    have hq : w / rule.increment < q := by
      by_contra hq
      push_neg at hq
      have h1 : rule.increment * q ≤ rule.increment * (w / rule.increment) :=
        mul_le_mul_of_nonneg_left hq hinc.le
      linarith
    have h2 : rule.increment * (w / rule.increment + 1) ≤ rule.increment * q :=
      mul_le_mul_of_nonneg_left (by omega) hinc.le
    rw [hnext_eq]
    exact h2
  have hres : roundWholeValue w rules =
      (if rule.max < next then
        { rounded := rule.max, wasRounded := true, increment := some rule.increment }
       else
        { rounded := next, wasRounded := true, increment := some rule.increment } :
        RoundingResult) := by
    unfold roundWholeValue
    rw [hfr]
    simp only [htm, hnext]
    rw [if_neg hrnz]
  rw [hres]
  split_ifs with hclamp
  · exact ⟨rfl, rfl, hwmax,
      Or.inr ⟨rfl, fun m hd hm => lt_of_lt_of_le hclamp (hleast m hd hm)⟩⟩
  · exact ⟨rfl, rfl, hlt_next.le, Or.inl ⟨hdvd_next, hlt_next, hleast⟩⟩

/-- Above the table's overall maximum: clamped to it, `outOfRange = true`. -/
lemma roundWholeValue_above {w : ℤ} {rules : List IncrementRange}
    (hmax : ∀ r ∈ rules, r.max ≤ lastMax rules) (h : lastMax rules < w) :
    roundWholeValue w rules =
      { rounded := lastMax rules, wasRounded := true, outOfRange := true } := by
  have hnone := findRange_eq_none fun r hr => lt_of_le_of_lt (hmax r hr) h
  unfold roundWholeValue
  rw [hnone, if_pos h]

/-- C1: for every real input value, quantity type and fill mode,
`roundToValidIncrement` follows the three-case policy. (a) When the
whole-unit-rounded value lies in a table range (first containing range of the
scan) and is not a multiple of that range's increment, the result has
`wasRounded = true`, `outOfRange` not set, is never below the whole value, and
is either exactly the least multiple of the increment above the whole value
(rounding up, never down) or the range max when every such multiple exceeds
it. (b) When the whole value is above the table's overall maximum, the result
is that maximum with `outOfRange = true`. (c) In particular, a computed total
of 90000 mL in low mode yields 80000 with `outOfRange = true`. -/
theorem roundToValidIncrement_policy (value : ℚ) (type : QuantityType) (mode : FillMode) :
    (∀ rule : IncrementRange,
      findRange (round value) (incrementRules mode type) = some rule →
      ¬ rule.increment ∣ round value →
      (roundToValidIncrement value type mode).wasRounded = true ∧
      (roundToValidIncrement value type mode).outOfRange = false ∧
      round value ≤ (roundToValidIncrement value type mode).rounded ∧
      ((rule.increment ∣ (roundToValidIncrement value type mode).rounded ∧
        round value < (roundToValidIncrement value type mode).rounded ∧
        ∀ m : ℤ, rule.increment ∣ m → round value < m →
          (roundToValidIncrement value type mode).rounded ≤ m) ∨
       ((roundToValidIncrement value type mode).rounded = rule.max ∧
        ∀ m : ℤ, rule.increment ∣ m → round value < m → rule.max < m))) ∧
    (lastMax (incrementRules mode type) < round value →
      (roundToValidIncrement value type mode).rounded = lastMax (incrementRules mode type) ∧
      (roundToValidIncrement value type mode).outOfRange = true) ∧
    ((roundToValidIncrement 90000 QuantityType.totalVolume FillMode.low).rounded = 80000 ∧
     (roundToValidIncrement 90000 QuantityType.totalVolume FillMode.low).outOfRange = true) := by
  refine ⟨?_, ?_, ?_⟩
  · intro rule hfr hndvd
    obtain ⟨hmem, -, -⟩ := findRange_eq_some hfr
    obtain ⟨hmin, hinc, -⟩ := incrementRules_wf mode type rule hmem
    exact roundWholeValue_in_range_not_dvd hfr hmin hinc hndvd
  · intro h
    rw [roundToValidIncrement,
      roundWholeValue_above (fun r hr => (incrementRules_wf mode type r hr).2.2) h]
    exact ⟨rfl, rfl⟩
  · have h90 : round ((90000 : ℚ)) = (90000 : ℤ) := by norm_num
    rw [roundToValidIncrement, h90]
    exact ⟨by decide, by decide⟩

/-- Witness for C1 at concrete inputs: 13440 in standard mode (Scenario A of
the spec) hits the in-range non-multiple case, and 90000 in low mode hits the
above-maximum case. -/
theorem roundToValidIncrement_policy_witness :
    (findRange (round ((13440 : ℚ))) (incrementRules FillMode.standard QuantityType.totalVolume) =
      some ⟨5000, 80000, 500⟩) ∧
    ¬ (500 : ℤ) ∣ 13440 ∧
    ((roundToValidIncrement 13440 QuantityType.totalVolume FillMode.standard).wasRounded = true ∧
     (roundToValidIncrement 13440 QuantityType.totalVolume FillMode.standard).outOfRange = false ∧
     round ((13440 : ℚ)) ≤ (roundToValidIncrement 13440 QuantityType.totalVolume FillMode.standard).rounded ∧
     (((⟨5000, 80000, 500⟩ : IncrementRange).increment ∣
        (roundToValidIncrement 13440 QuantityType.totalVolume FillMode.standard).rounded ∧
       round ((13440 : ℚ)) < (roundToValidIncrement 13440 QuantityType.totalVolume FillMode.standard).rounded ∧
       ∀ m : ℤ, (⟨5000, 80000, 500⟩ : IncrementRange).increment ∣ m → round ((13440 : ℚ)) < m →
         (roundToValidIncrement 13440 QuantityType.totalVolume FillMode.standard).rounded ≤ m) ∨
      ((roundToValidIncrement 13440 QuantityType.totalVolume FillMode.standard).rounded =
        (⟨5000, 80000, 500⟩ : IncrementRange).max ∧
       ∀ m : ℤ, (⟨5000, 80000, 500⟩ : IncrementRange).increment ∣ m → round ((13440 : ℚ)) < m →
         (⟨5000, 80000, 500⟩ : IncrementRange).max < m))) := by
  have h13440 : round ((13440 : ℚ)) = (13440 : ℤ) := by norm_num
  refine ⟨by rw [h13440]; decide, by decide, ?_⟩
  exact (roundToValidIncrement_policy 13440 QuantityType.totalVolume FillMode.standard).1
    ⟨5000, 80000, 500⟩ (by rw [h13440]; decide) (by rw [h13440]; decide)

/-- C2 counterexample: the input 100.4 mL lies within the low-mode fillVolume
table's overall span [60, 1000] (so it is neither below the overall minimum
nor out of range), yet `roundToValidIncrement` returns 100, which is below the
input: `Math.round` first rounds 100.4 down to the whole unit 100, a valid
multiple, so the claimed `rounded ≥ value` fails for fractional inputs. -/
theorem roundToValidIncrement_below_input_cex :
    ((firstMin (incrementRules FillMode.low QuantityType.fillVolume) : ℚ) ≤ 502 / 5 ∧
     (502 / 5 : ℚ) ≤ (lastMax (incrementRules FillMode.low QuantityType.fillVolume) : ℚ)) ∧
    ((roundToValidIncrement (502 / 5) QuantityType.fillVolume FillMode.low).rounded : ℚ) <
      502 / 5 := by
  have hr : round ((502 : ℚ) / 5) = (100 : ℤ) := by
    rw [round_eq]
    norm_num
  have hv : (roundToValidIncrement (502 / 5) QuantityType.fillVolume FillMode.low).rounded =
      100 := by
    rw [roundToValidIncrement, hr]
    decide
  refine ⟨⟨?_, ?_⟩, ?_⟩
  · rw [show firstMin (incrementRules FillMode.low QuantityType.fillVolume) = 60 from rfl]
    norm_num
  · rw [show lastMax (incrementRules FillMode.low QuantityType.fillVolume) = 1000 from rfl]
    norm_num
  · rw [hv]
    norm_num

/-- C2 amended: `roundToValidIncrement` never returns a value below the
whole-unit-rounded input `round value` unless that whole value lies above the
table's overall maximum (the above-max clamp); i.e. whenever
`round value ≤ lastMax`, the returned value is `≥ round value`. (Relative to
the original claim, the comparison is against the whole-unit-rounded value
rather than the raw input — `Math.round` may shave up to half a unit off the
raw input first — and the exception is the above-maximum clamp, not the
below-minimum one, which clamps upward.) -/
theorem roundToValidIncrement_ge_round (value : ℚ) (type : QuantityType) (mode : FillMode)
    (h : round value ≤ lastMax (incrementRules mode type)) :
    round value ≤ (roundToValidIncrement value type mode).rounded := by
  rw [roundToValidIncrement]
  cases hfr : findRange (round value) (incrementRules mode type) with
  | some rule =>
    obtain ⟨hmem, hwmin, hwmax⟩ := findRange_eq_some hfr
    obtain ⟨hmin, hinc, -⟩ := incrementRules_wf mode type rule hmem
    by_cases hdvd : rule.increment ∣ round value
    · rw [roundWholeValue_in_range_dvd hfr (le_trans hmin hwmin) hinc hdvd]
    · exact (roundWholeValue_in_range_not_dvd hfr hmin hinc hdvd).2.2.1
  | none =>
    have hb := findRange_none_bounds (incrementRules mode type)
      (incrementRules_chain mode type) (incrementRules_ne_nil mode type) hfr
    unfold roundWholeValue
    rw [hfr, if_neg (not_lt.mpr h)]
    rcases hb with hlt | hgt
    · exact hlt.le
    · exact absurd hgt (not_lt.mpr h)

/-- Witness for C2's amended theorem at the counterexample input 100.4 mL:
its whole-unit rounding 100 is at or below the overall maximum 1000, and the
returned value is at least 100. -/
theorem roundToValidIncrement_ge_round_witness :
    round ((502 : ℚ) / 5) ≤ lastMax (incrementRules FillMode.low QuantityType.fillVolume) ∧
    round ((502 : ℚ) / 5) ≤
      (roundToValidIncrement (502 / 5) QuantityType.fillVolume FillMode.low).rounded := by
  have hr : round ((502 : ℚ) / 5) = (100 : ℤ) := by
    rw [round_eq]
    norm_num
  have hle : round ((502 : ℚ) / 5) ≤ lastMax (incrementRules FillMode.low QuantityType.fillVolume) := by
    rw [hr]
    decide
  exact ⟨hle, roundToValidIncrement_ge_round (502 / 5) QuantityType.fillVolume FillMode.low hle⟩

/-! Validator lemmas. -/

lemma jsTrunc_intCast (z : ℤ) : jsTrunc ((z : ℚ)) = z := by
  unfold jsTrunc
  split_ifs <;> simp

/-- Evaluating `validateValue` at a rational that equals an integer. -/
lemma validateValue_intLike (q : ℚ) (z : ℤ) (h : q = (z : ℚ)) (type : QuantityType)
    (mode : FillMode) :
    validateValue q type mode = validateValueInt z (incrementRules mode type) := by
  subst h
  unfold validateValue
  rw [jsTrunc_intCast]

/-- C3 counterexample: 100.5 is not an integer, yet
`validateValue 100.5 fillVolume standard` reports it valid — `parseInt`
truncates the fractional input to 100, which is a valid multiple of 10 in the
100–500 range, so fractional input is not rejected at all (let alone signalled
distinctly from out-of-range). -/
theorem validateValue_fractional_cex :
    (validateValue (201 / 2) QuantityType.fillVolume FillMode.standard).valid = true ∧
    ∀ z : ℤ, (201 / 2 : ℚ) ≠ (z : ℚ) := by
  constructor
  · have htr : jsTrunc ((201 : ℚ) / 2) = 100 := by
      unfold jsTrunc
      rw [if_pos (by norm_num)]
      norm_num
    unfold validateValue
    rw [htr]
    decide
  · intro z hz
    have h2 : (201 : ℚ) = 2 * (z : ℚ) := by
      rw [← hz]
      norm_num
    have h3 : (201 : ℤ) = 2 * z := by exact_mod_cast h2
    omega

/-- C3 amended: `validateValue` does not require integrality; it truncates the
numeric input toward zero (`parseInt` of its decimal rendering) and validates
that truncated integer, so any fractional input is judged exactly as its
integer part is. Non-parsable input (the `isNaN` branch) is what the distinct
invalid-number message reports, not fractional numbers. -/
theorem validateValue_trunc_invariant (value : ℚ) (type : QuantityType) (mode : FillMode) :
    validateValue value type mode = validateValue ((jsTrunc value : ℤ) : ℚ) type mode := by
  unfold validateValue
  rw [jsTrunc_intCast]

/-- C8: `validateInputs` surfaces exactly the first failing check in the fixed
precedence order: (1) fill = 0, (2) total against the totalVolume table,
(3) fill against the fillVolume table, (4) last fill against the fillVolume
table, (5) last > fill, (6) fill ≤ 0; a later check's failure is reported only
when every earlier check passes, and when all pass the result is `none`. -/
theorem validateInputs_precedence (total fill last : ℚ) (mode : FillMode) :
    (fill = 0 → validateInputs total fill last mode = some InputError.fillTooSmall) ∧
    (fill ≠ 0 → (validateValue total QuantityType.totalVolume mode).valid = false →
      validateInputs total fill last mode =
        some (InputError.totalVolumeError
          (validateValue total QuantityType.totalVolume mode).message)) ∧
    (fill ≠ 0 → (validateValue total QuantityType.totalVolume mode).valid = true →
      (validateValue fill QuantityType.fillVolume mode).valid = false →
      validateInputs total fill last mode =
        some (InputError.fillVolumeError
          (validateValue fill QuantityType.fillVolume mode).message)) ∧
    (fill ≠ 0 → (validateValue total QuantityType.totalVolume mode).valid = true →
      (validateValue fill QuantityType.fillVolume mode).valid = true →
      (validateValue last QuantityType.fillVolume mode).valid = false →
      validateInputs total fill last mode =
        some (InputError.lastFillError
          (validateValue last QuantityType.fillVolume mode).message)) ∧
    (fill ≠ 0 → (validateValue total QuantityType.totalVolume mode).valid = true →
      (validateValue fill QuantityType.fillVolume mode).valid = true →
      (validateValue last QuantityType.fillVolume mode).valid = true →
      fill < last →
      validateInputs total fill last mode = some InputError.fillTooLarge) ∧
    (fill ≠ 0 → (validateValue total QuantityType.totalVolume mode).valid = true →
      (validateValue fill QuantityType.fillVolume mode).valid = true →
      (validateValue last QuantityType.fillVolume mode).valid = true →
      ¬ fill < last → fill ≤ 0 →
      validateInputs total fill last mode = some InputError.fillTooSmall) ∧
    (fill ≠ 0 → (validateValue total QuantityType.totalVolume mode).valid = true →
      (validateValue fill QuantityType.fillVolume mode).valid = true →
      (validateValue last QuantityType.fillVolume mode).valid = true →
      ¬ fill < last → ¬ fill ≤ 0 →
      validateInputs total fill last mode = none) := by
  refine ⟨?_, ?_, ?_, ?_, ?_, ?_, ?_⟩ <;> intros <;> simp [validateInputs, *]

/-- Witness for C8 at concrete inputs (Scenario B's values, low mode): every
check passes and `validateInputs` returns `none`. -/
theorem validateInputs_precedence_witness :
    (240 : ℚ) ≠ 0 ∧
    (validateValue 3000 QuantityType.totalVolume FillMode.low).valid = true ∧
    (validateValue 240 QuantityType.fillVolume FillMode.low).valid = true ∧
    (validateValue 120 QuantityType.fillVolume FillMode.low).valid = true ∧
    validateInputs 3000 240 120 FillMode.low = none := by
  have htv : (validateValue 3000 QuantityType.totalVolume FillMode.low).valid = true := by
    rw [validateValue_intLike 3000 3000 (by norm_num)]
    decide
  have hfv : (validateValue 240 QuantityType.fillVolume FillMode.low).valid = true := by
    rw [validateValue_intLike 240 240 (by norm_num)]
    decide
  have hlv : (validateValue 120 QuantityType.fillVolume FillMode.low).valid = true := by
    rw [validateValue_intLike 120 120 (by norm_num)]
    decide
  refine ⟨by norm_num, htv, hfv, hlv, ?_⟩
  exact (validateInputs_precedence 3000 240 120 FillMode.low).2.2.2.2.2.2
    (by norm_num) htv hfv hlv (by norm_num) (by norm_num)

/-- C6: `calculateCyclesFromVolume` is the floor formula
`⌊(total - last) / fill⌋` whenever `fill > 0`, is 0 when `fill = 0` (no
division by zero occurs), and in particular gives 12 cycles for
total 3000, lastFill 120, fillVolume 240. -/
theorem calculateCyclesFromVolume_floor :
    (∀ total last fill : ℚ, 0 < fill →
      calculateCyclesFromVolume total last fill = ⌊(total - last) / fill⌋) ∧
    (∀ total last : ℚ, calculateCyclesFromVolume total last 0 = 0) ∧
    calculateCyclesFromVolume 3000 120 240 = 12 := by
  refine ⟨?_, ?_, ?_⟩
  · intro total last fill hf
    rw [calculateCyclesFromVolume, if_neg hf.ne']
  · intro total last
    rw [calculateCyclesFromVolume, if_pos rfl]
  · rw [calculateCyclesFromVolume, if_neg (by norm_num : ¬ ((240 : ℚ) = 0))]
    norm_num

/-- Witness for C6's floor formula at Scenario B's inputs. -/
theorem calculateCyclesFromVolume_floor_witness :
    (0 : ℚ) < 240 ∧
    calculateCyclesFromVolume 3000 120 240 = ⌊(((3000 : ℚ) - 120) / 240)⌋ :=
  ⟨by norm_num, calculateCyclesFromVolume_floor.1 3000 120 240 (by norm_num)⟩

/-- C7: round trip — recomputing the total volume from the solved cycle count
never exceeds the original total (it may be less, by the floor truncation). -/
theorem roundtrip_volume_le (total last fill : ℚ) (hfill : 0 < fill) :
    calculateVolumeFromCycles (calculateCyclesFromVolume total last fill) fill last ≤ total := by
  rw [calculateVolumeFromCycles, calculateCyclesFromVolume, if_neg hfill.ne']
  have h1 : (⌊(total - last) / fill⌋ : ℚ) ≤ (total - last) / fill := Int.floor_le _
  have h2 : (⌊(total - last) / fill⌋ : ℚ) * fill ≤ (total - last) / fill * fill :=
    mul_le_mul_of_nonneg_right h1 hfill.le
  rw [div_mul_cancel₀ _ hfill.ne'] at h2
  linarith

/-- Witness for C7 at Scenario B's inputs: 12 cycles of 240 plus 120 gives
exactly 3000, which is at most 3000. -/
theorem roundtrip_volume_le_witness :
    (0 : ℚ) < 240 ∧
    calculateVolumeFromCycles (calculateCyclesFromVolume 3000 120 240) 240 120 ≤ 3000 :=
  ⟨by norm_num, roundtrip_volume_le 3000 120 240 (by norm_num)⟩

/-- C9 counterexample: at hours = 0 (and 12 cycles) the dwell time
`0·60 − 15·12` is negative, so the claimed policy demands the zeroed error
state, but the code's falsy-zero guard returns no breakdown at all (`none`,
the source's `null`). -/
theorem calculateTimeBreakdown_zero_hours_cex :
    calculateTimeBreakdown 0 12 = none ∧
    (0 : ℚ) * 60 - FILL_DRAIN_TIME_MINUTES * ((12 : ℤ) : ℚ) < 0 := by
  constructor
  · rw [calculateTimeBreakdown, if_pos (Or.inl rfl)]
  · rw [FILL_DRAIN_TIME_MINUTES]
    push_cast
    norm_num

/-- C9 amended: for every nonzero treatment duration and positive cycle count,
`calculateTimeBreakdown` computes totalMinutes = hours·60,
totalOverhead = 15·cycles and totalDwell = totalMinutes − totalOverhead; when
totalDwell < 0 it returns the error state with every numeric field zeroed, and
otherwise dwellPerCycle = totalDwell / cycles and
timePerCycle = totalMinutes / cycles. Scenario C (hours 8, cycles 12) gives
480 total minutes, 180 overhead, dwell 300 (5 hours), 25 dwell and 40 total
minutes per cycle; Scenario D (hours 1, cycles 12) gives the zeroed error
state. (Amended from the original claim only by excluding hours = 0, where the
falsy-zero guard returns no breakdown instead of the error state.) -/
theorem calculateTimeBreakdown_cases (hours : ℚ) (cycles : ℤ) (hh : hours ≠ 0)
    (hc : 0 < cycles) :
    (hours * 60 - 15 * (cycles : ℚ) < 0 →
      calculateTimeBreakdown hours cycles = some timeBreakdownErrorState) ∧
    (0 ≤ hours * 60 - 15 * (cycles : ℚ) →
      ∃ tb : TimeBreakdown, calculateTimeBreakdown hours cycles = some tb ∧
        tb.error = false ∧
        tb.totalTreatmentMinutes = hours * 60 ∧
        tb.totalFillDrainTimeMinutes = 15 * (cycles : ℚ) ∧
        tb.totalDwellTimeHours = (hours * 60 - 15 * (cycles : ℚ)) / 60 ∧
        tb.dwellTimeMinutes = (hours * 60 - 15 * (cycles : ℚ)) / (cycles : ℚ) ∧
        tb.timePerCycleMinutes = hours * 60 / (cycles : ℚ)) ∧
    (∃ tb : TimeBreakdown, calculateTimeBreakdown 8 12 = some tb ∧
      tb.totalTreatmentMinutes = 480 ∧ tb.totalFillDrainTimeMinutes = 180 ∧
      tb.totalDwellTimeHours = 300 / 60 ∧ tb.dwellTimeMinutes = 25 ∧
      tb.timePerCycleMinutes = 40 ∧ tb.error = false) ∧
    calculateTimeBreakdown 1 12 = some timeBreakdownErrorState := by
  have hguard : ¬ (hours = 0 ∨ cycles = 0) := by
    push_neg
    exact ⟨hh, hc.ne'⟩
  refine ⟨?_, ?_, ?_, ?_⟩
  · intro hneg
    simp only [calculateTimeBreakdown, FILL_DRAIN_TIME_MINUTES]
    rw [if_neg hguard, if_pos hneg]
  · intro hpos
    simp only [calculateTimeBreakdown, FILL_DRAIN_TIME_MINUTES]
    rw [if_neg hguard, if_neg (not_lt.mpr hpos)]
    exact ⟨_, rfl, rfl, rfl, rfl, rfl, rfl, rfl⟩
  · simp only [calculateTimeBreakdown, FILL_DRAIN_TIME_MINUTES]
    rw [if_neg (by norm_num), if_neg (by push_cast; norm_num)]
    refine ⟨_, rfl, ?_, ?_, ?_, ?_, ?_, rfl⟩ <;> push_cast <;> norm_num
  · simp only [calculateTimeBreakdown, FILL_DRAIN_TIME_MINUTES]
    rw [if_neg (by norm_num), if_pos (by push_cast; norm_num)]

/-- Witness for C9's amended theorem: Scenario C's treatment (8 hours, 12
cycles) instantiates the non-error branch. -/
theorem calculateTimeBreakdown_cases_witness :
    ∃ tb : TimeBreakdown, calculateTimeBreakdown 8 12 = some tb ∧
      tb.error = false ∧
      tb.totalTreatmentMinutes = (8 : ℚ) * 60 ∧
      tb.totalFillDrainTimeMinutes = 15 * ((12 : ℤ) : ℚ) ∧
      tb.totalDwellTimeHours = ((8 : ℚ) * 60 - 15 * ((12 : ℤ) : ℚ)) / 60 ∧
      tb.dwellTimeMinutes = ((8 : ℚ) * 60 - 15 * ((12 : ℤ) : ℚ)) / ((12 : ℤ) : ℚ) ∧
      tb.timePerCycleMinutes = (8 : ℚ) * 60 / ((12 : ℤ) : ℚ) :=
  (calculateTimeBreakdown_cases 8 12 (by norm_num) (by norm_num)).2.1
    (by push_cast; norm_num)

/-- C10: whole-request validation never compares the total volume against the
last fill, so inputs can pass validation while the cycle solver returns a
negative count: in standard mode, total 200 / fill 500 / last 500 all
validate (and `last ≤ fill` holds), yet
`calculateCyclesFromVolume 200 500 500 = ⌊-300/500⌋ = -1`. -/
theorem validateInputs_allows_negative_cycles :
    validateInputs 200 500 500 FillMode.standard = none ∧
    calculateCyclesFromVolume 200 500 500 = -1 ∧
    (200 : ℚ) < 500 := by
  have htv : (validateValue 200 QuantityType.totalVolume FillMode.standard).valid = true := by
    rw [validateValue_intLike 200 200 (by norm_num)]
    decide
  have hfv : (validateValue 500 QuantityType.fillVolume FillMode.standard).valid = true := by
    rw [validateValue_intLike 500 500 (by norm_num)]
    decide
  refine ⟨?_, ?_, by norm_num⟩
  · norm_num [validateInputs, htv, hfv]
  · rw [calculateCyclesFromVolume, if_neg (by norm_num : ¬ ((500 : ℚ) = 0))]
    norm_num

/-! Tidal engine lemmas. -/

lemma tidalCycleVolume_zero (fill t : ℚ) (n : ℕ) : tidalCycleVolume 0 fill t n = 0 := by
  simp [tidalCycleVolume]

/-- One more cycle never decreases the tidal forward volume: the extra cycle
is either a tidal drain (adds `fill · t ≥ 0`) or a full drain (adds
`fill ≥ 0`). -/
lemma tidalCycleVolume_step (fill t : ℚ) (n : ℕ) (c : ℕ) (hfill : 0 ≤ fill) (ht : 0 ≤ t)
    (hn : 1 ≤ n) : tidalCycleVolume c fill t n ≤ tidalCycleVolume (c + 1) fill t n := by
  have hn0 : (0 : ℚ) < (n : ℚ) := by exact_mod_cast hn
  have hcast : ((c + 1 : ℕ) : ℚ) = (c : ℚ) + 1 := by push_cast; ring
  have hmono : ⌈(c : ℚ) / (n : ℚ)⌉ ≤ ⌈((c + 1 : ℕ) : ℚ) / (n : ℚ)⌉ := by
    apply Int.ceil_le_ceil
    rw [hcast]
    gcongr
    linarith
  have hup : ⌈((c + 1 : ℕ) : ℚ) / (n : ℚ)⌉ ≤ ⌈(c : ℚ) / (n : ℚ)⌉ + 1 := by
    rw [hcast]
    calc ⌈((c : ℚ) + 1) / (n : ℚ)⌉ ≤ ⌈(c : ℚ) / (n : ℚ) + 1⌉ := by
          apply Int.ceil_le_ceil
          rw [add_div]
          have h1n : (1 : ℚ) / (n : ℚ) ≤ 1 := by
            rw [div_le_one hn0]
            exact_mod_cast hn
          linarith
      _ = ⌈(c : ℚ) / (n : ℚ)⌉ + 1 := Int.ceil_add_one _
  simp only [tidalCycleVolume]
  set a := ⌈(c : ℚ) / (n : ℚ)⌉ with ha
  set b := ⌈((c + 1 : ℕ) : ℚ) / (n : ℚ)⌉ with hb
  have hmt : 0 ≤ fill * t := mul_nonneg hfill ht
  have hba : b = a ∨ b = a + 1 := by omega
  rcases hba with h | h <;> rw [h] <;> rw [hcast] <;> push_cast <;> nlinarith [hmt, hfill]

lemma tidalCycleVolume_mono {fill t : ℚ} {n : ℕ} (hfill : 0 ≤ fill) (ht : 0 ≤ t)
    (hn : 1 ≤ n) : Monotone fun c : ℕ => tidalCycleVolume c fill t n :=
  monotone_nat_of_le_succ fun c => tidalCycleVolume_step fill t n c hfill ht hn

/-- When the loop body's volume already exceeds the working volume, the loop
breaks and returns the current best. -/
lemma tidalSearchGo_break (w fill t : ℚ) (n fuel c best : ℕ) (hc : c ≤ MAX_TIDAL_CYCLES)
    (h : ¬ tidalCycleVolume c fill t n ≤ w) :
    tidalSearchGo w fill t n (fuel + 1) c best = best := by
  rw [tidalSearchGo, if_neg (not_lt.mpr hc), if_neg h]

/-- Invariant of the ascending scan: starting at counter `c` with best `c - 1`
and enough fuel, the result is at least `c - 1`, at most the cap, achieves a
volume within budget whenever it is positive, and every counter beyond it (up
to the cap) overshoots the budget. -/
lemma tidalSearchGo_spec (w fill t : ℚ) (n : ℕ) (hfill : 0 ≤ fill) (ht : 0 ≤ t)
    (hn : 1 ≤ n) :
    ∀ fuel c : ℕ, 1 ≤ c → c ≤ MAX_TIDAL_CYCLES + 1 → c + fuel = MAX_TIDAL_CYCLES + 2 →
    (1 ≤ c - 1 → tidalCycleVolume (c - 1) fill t n ≤ w) →
    c - 1 ≤ tidalSearchGo w fill t n fuel c (c - 1) ∧
    tidalSearchGo w fill t n fuel c (c - 1) ≤ MAX_TIDAL_CYCLES ∧
    (1 ≤ tidalSearchGo w fill t n fuel c (c - 1) →
      tidalCycleVolume (tidalSearchGo w fill t n fuel c (c - 1)) fill t n ≤ w) ∧
    ∀ k : ℕ, tidalSearchGo w fill t n fuel c (c - 1) < k → k ≤ MAX_TIDAL_CYCLES →
      w < tidalCycleVolume k fill t n := by
  have hM : MAX_TIDAL_CYCLES = 1000 := rfl
  intro fuel
  induction fuel with
  | zero =>
    intro c h1 h2 h3 _
    omega
  | succ fuel ih =>
    intro c h1 h2 h3 hprev
    rw [tidalSearchGo]
    by_cases hgt : MAX_TIDAL_CYCLES < c
    · rw [if_pos hgt]
      refine ⟨le_refl _, by omega, hprev, ?_⟩
      intro k hk1 hk2
      omega
    · rw [if_neg hgt]
      by_cases hVc : tidalCycleVolume c fill t n ≤ w
      · rw [if_pos hVc]
        have hih := ih (c + 1) (by omega) (by omega) (by omega)
          (by intro _; simpa using hVc)
        simp only [Nat.add_sub_cancel] at hih
        obtain ⟨ih1, ih2, ih3, ih4⟩ := hih
        exact ⟨by omega, ih2, ih3, ih4⟩
      · rw [if_neg hVc]
        have hwlt : w < tidalCycleVolume c fill t n := not_le.mp hVc
        refine ⟨le_refl _, by omega, hprev, ?_⟩
        intro k hk1 hk2
        exact lt_of_lt_of_le hwlt (tidalCycleVolume_mono hfill ht hn (by omega : c ≤ k))

/-- Specification of the full search: result capped at MAX_TIDAL_CYCLES, its
own volume within budget when positive, and everything above it (up to the
cap) over budget. -/
lemma calculateTidalCyclesCount_spec (w fill t : ℚ) (n : ℕ) (hfill : 0 ≤ fill)
    (ht : 0 ≤ t) (hn : 1 ≤ n) :
    calculateTidalCyclesCount w fill t n ≤ MAX_TIDAL_CYCLES ∧
    (1 ≤ calculateTidalCyclesCount w fill t n →
      tidalCycleVolume (calculateTidalCyclesCount w fill t n) fill t n ≤ w) ∧
    ∀ k : ℕ, calculateTidalCyclesCount w fill t n < k → k ≤ MAX_TIDAL_CYCLES →
      w < tidalCycleVolume k fill t n := by
  have h := tidalSearchGo_spec w fill t n hfill ht hn (MAX_TIDAL_CYCLES + 1) 1
    (le_refl 1) (by omega) (by omega) (by intro h0; exact absurd h0 (by norm_num))
  simp only [show (1 : ℕ) - 1 = 0 from rfl] at h
  rw [calculateTidalCyclesCount]
  exact ⟨h.2.1, h.2.2.1, h.2.2.2⟩

/-- C4: for every working-volume budget, positive fill volume, valid tidal
fraction and full-drain interval in [1, 10], the tidal forward volume
`V(c) = fill·t·(c − ⌈c/interval⌉) + ⌈c/interval⌉·fill` is non-decreasing in
the cycle count, and `calculateTidalCyclesCount` returns the greatest
`c ∈ [1, 1000]` with `V(c) ≤ budget`, or 0 when no `c ≥ 1` fits. -/
theorem tidal_search_max_correct (w fill t : ℚ) (n : ℕ) (hfill : 0 < fill)
    (ht : ValidTidalFraction t) (hn1 : 1 ≤ n) (hn10 : n ≤ 10) :
    (∀ c : ℕ, tidalCycleVolume c fill t n ≤ tidalCycleVolume (c + 1) fill t n) ∧
    ((1 ≤ calculateTidalCyclesCount w fill t n ∧
      calculateTidalCyclesCount w fill t n ≤ MAX_TIDAL_CYCLES ∧
      tidalCycleVolume (calculateTidalCyclesCount w fill t n) fill t n ≤ w ∧
      ∀ k : ℕ, 1 ≤ k → k ≤ MAX_TIDAL_CYCLES → tidalCycleVolume k fill t n ≤ w →
        k ≤ calculateTidalCyclesCount w fill t n) ∨
     (calculateTidalCyclesCount w fill t n = 0 ∧
      ∀ k : ℕ, 1 ≤ k → w < tidalCycleVolume k fill t n)) := by
  have hM : MAX_TIDAL_CYCLES = 1000 := rfl
  have ht0 : 0 ≤ t := by
    obtain ⟨k, -, -, rfl⟩ := ht
    positivity
  have hspec := calculateTidalCyclesCount_spec w fill t n hfill.le ht0 hn1
  refine ⟨fun c => tidalCycleVolume_step fill t n c hfill.le ht0 hn1, ?_⟩
  rcases Nat.eq_zero_or_pos (calculateTidalCyclesCount w fill t n) with h0 | hpos
  · right
    refine ⟨h0, fun k hk => ?_⟩
    rcases le_or_lt k MAX_TIDAL_CYCLES with hk2 | hk2
    · exact hspec.2.2 k (by omega) hk2
    · have h1000 : w < tidalCycleVolume MAX_TIDAL_CYCLES fill t n :=
        hspec.2.2 MAX_TIDAL_CYCLES (by omega) (le_refl _)
      exact lt_of_lt_of_le h1000 (tidalCycleVolume_mono hfill.le ht0 hn1 (by omega))
  · left
    refine ⟨hpos, hspec.1, hspec.2.1 hpos, ?_⟩
    intro k hk1 hk2 hVk
    by_contra hlt
    push_neg at hlt
    exact absurd hVk (not_le.mpr (hspec.2.2 k hlt hk2))

/-- Witness for C4 at fill 500, tidal fraction 1/2, interval 3: the
monotonicity conclusion applied at one step. -/
theorem tidal_search_max_correct_witness :
    (0 : ℚ) < 500 ∧ ValidTidalFraction (1 / 2) ∧ (1 ≤ (3 : ℕ) ∧ (3 : ℕ) ≤ 10) ∧
    tidalCycleVolume 1 500 (1 / 2) 3 ≤ tidalCycleVolume 2 500 (1 / 2) 3 :=
  ⟨by norm_num, ⟨10, by norm_num⟩, ⟨by norm_num, by norm_num⟩,
    (tidal_search_max_correct 1000 500 (1 / 2) 3 (by norm_num) ⟨10, by norm_num⟩
      (by norm_num) (by norm_num)).1 1⟩

lemma calculateVolumeFromTidalCycles_eq (c : ℕ) (fill last t : ℚ) (n : ℕ) :
    calculateVolumeFromTidalCycles c fill last t n = tidalCycleVolume c fill t n + last := rfl

/-- C5 counterexample: with a negative working volume (reachable from
validated inputs, e.g. standard-mode total 200 minus last fill 500), the
search returns 0 cycles, and feeding 0 back into the forward formula without
last fill gives volume 0, which is not ≤ the budget −300: the claimed
round-trip inequality fails as stated. -/
theorem tidal_inverse_forward_cex :
    (0 : ℚ) < 500 ∧ ValidTidalFraction (1 / 2) ∧ (1 ≤ (3 : ℕ) ∧ (3 : ℕ) ≤ 10) ∧
    calculateTidalCyclesCount (-300) 500 (1 / 2) 3 = 0 ∧
    ¬ calculateVolumeFromTidalCycles 0 500 0 (1 / 2) 3 ≤ (-300 : ℚ) := by
  have hV1 : tidalCycleVolume 1 500 (1 / 2) 3 = 500 := by
    simp only [tidalCycleVolume, Nat.cast_one, Nat.cast_ofNat]
    rw [show ⌈(1 : ℚ) / 3⌉ = 1 by rw [Int.ceil_eq_iff] <;> norm_num]
    push_cast
    norm_num
  refine ⟨by norm_num, ⟨10, by norm_num⟩, ⟨by norm_num, by norm_num⟩, ?_, ?_⟩
  · rw [calculateTidalCyclesCount]
    apply tidalSearchGo_break
    · norm_num [MAX_TIDAL_CYCLES]
    · rw [hV1]
      norm_num
  · rw [calculateVolumeFromTidalCycles_eq, tidalCycleVolume_zero]
    norm_num

/-- C5 amended: for every valid tidal input with a nonnegative working-volume
budget, feeding the returned cycle count back into the forward formula without
last fill yields a volume ≤ the budget, and — provided the count is below the
hard cap of 1000 — one more cycle would exceed the budget. (Amended from the
original claim by requiring budget ≥ 0 — with a negative budget the returned
count 0 still has forward volume 0 > budget — and by restricting the
`cycles + 1` overshoot to counts below the cap, where the scan actually
examined `cycles + 1`.) -/
theorem tidal_inverse_forward_consistent (w fill t : ℚ) (n : ℕ) (hfill : 0 < fill)
    (ht : ValidTidalFraction t) (hn1 : 1 ≤ n) (hn10 : n ≤ 10) (hw : 0 ≤ w) :
    calculateVolumeFromTidalCycles (calculateTidalCyclesCount w fill t n) fill 0 t n ≤ w ∧
    (calculateTidalCyclesCount w fill t n < MAX_TIDAL_CYCLES →
      w < calculateVolumeFromTidalCycles (calculateTidalCyclesCount w fill t n + 1)
        fill 0 t n) := by
  have ht0 : 0 ≤ t := by
    obtain ⟨k, -, -, rfl⟩ := ht
    positivity
  have hspec := calculateTidalCyclesCount_spec w fill t n hfill.le ht0 hn1
  rw [calculateVolumeFromTidalCycles_eq, calculateVolumeFromTidalCycles_eq]
  constructor
  · rcases Nat.eq_zero_or_pos (calculateTidalCyclesCount w fill t n) with h0 | hpos
    · rw [h0, tidalCycleVolume_zero]
      simpa using hw
    · have := hspec.2.1 hpos
      rw [add_zero]
      exact this
  · intro hlt
    have := hspec.2.2 (calculateTidalCyclesCount w fill t n + 1) (by omega) (by omega)
    rw [add_zero]
    exact this

/-- Witness for C5's amended theorem at budget 1000, fill 500, fraction 1/2,
interval 3. -/
theorem tidal_inverse_forward_consistent_witness :
    (0 : ℚ) < 500 ∧ ValidTidalFraction (1 / 2) ∧ (0 : ℚ) ≤ 1000 ∧
    calculateVolumeFromTidalCycles (calculateTidalCyclesCount 1000 500 (1 / 2) 3)
      500 0 (1 / 2) 3 ≤ 1000 :=
  ⟨by norm_num, ⟨10, by norm_num⟩, by norm_num,
    (tidal_inverse_forward_consistent 1000 500 (1 / 2) 3 (by norm_num) ⟨10, by norm_num⟩
      (by norm_num) (by norm_num) (by norm_num)).1⟩

end PDCalc
